import Mathlib

/-!
Verification development for the filesystem-server repository.

The subsystems embedded here are the watch-session pool
(src/utils/monitor-pool.js), the file-content cache and its monitoring
bridge (src/tools/file-tools.js), and the directory-listing cache
(src/tools/dir-tools.js).  JavaScript Maps are modelled as
insertion-ordered association lists, Sets as insertion-ordered lists
without duplicates, Date.now() timestamps as explicit Int arguments,
and paths as lists of components (a normalized path; path.normalize is
the identity on this representation, path.dirname drops the last
component, and the root path is the empty list).
-/

namespace FsSrv

/-- Paths as normalized component lists.  The empty list denotes the
filesystem root. -/
abbrev FPath := List String

/-- path.dirname on component lists: drop the last component; the
dirname of the root is the root (as in JS, where dirname of the root
returns the root). -/
def dirname (p : FPath) : FPath := p.dropLast

/-- JS Map.prototype.set: update the value in place when the key is
present (keeping its position), otherwise append the new binding. -/
def mapSet {α β : Type} [DecidableEq α] (k : α) (v : β) : List (α × β) → List (α × β)
  | [] => [(k, v)]
  | (a, b) :: t => if a = k then (k, v) :: t else (a, b) :: mapSet k v t

/-- JS Map.prototype.delete: remove the binding for a key. -/
def mapDelete {α β : Type} [DecidableEq α] (k : α) (l : List (α × β)) : List (α × β) :=
  l.filter (fun e => e.1 ≠ k)

/-- JS Map.prototype.get: the value bound to a key, if any. -/
def mapLookup {α β : Type} [DecidableEq α] (k : α) : List (α × β) → Option β
  | [] => none
  | (a, b) :: t => if a = k then some b else mapLookup k t

/-- JS Set.prototype.add: append when absent. -/
def setAdd {α : Type} [DecidableEq α] (k : α) (l : List α) : List α :=
  if k ∈ l then l else l ++ [k]

/-- JS Set.prototype.delete. -/
def setDelete {α : Type} [DecidableEq α] (k : α) (l : List α) : List α :=
  l.filter (fun e => e ≠ k)

lemma mapLookup_mapSet_self {α β : Type} [DecidableEq α] (k : α) (v : β)
    (l : List (α × β)) : mapLookup k (mapSet k v l) = some v := by
  induction l with
  | nil => simp [mapSet, mapLookup]
  | cons a t ih =>
    obtain ⟨a1, a2⟩ := a
    by_cases h : a1 = k
    · simp [mapSet, h, mapLookup]
    · simp [mapSet, h, mapLookup, ih]

lemma mapLookup_mapDelete_self {α β : Type} [DecidableEq α] (k : α)
    (l : List (α × β)) : mapLookup k (mapDelete k l) = none := by
  induction l with
  | nil => simp [mapDelete, mapLookup]
  | cons a t ih =>
    obtain ⟨a1, a2⟩ := a
    by_cases h : a1 = k
    · simpa [mapDelete, h] using ih
    · simpa [mapDelete, h, mapLookup] using ih

lemma mapLookup_mapDelete_none {α β : Type} [DecidableEq α] (j k : α)
    (l : List (α × β)) (h : mapLookup k l = none) :
    mapLookup k (mapDelete j l) = none := by
  induction l with
  | nil => simp [mapDelete, mapLookup]
  | cons a t ih =>
    obtain ⟨a1, a2⟩ := a
    have hk : a1 ≠ k := by
      intro he
      rw [mapLookup, if_pos he] at h
      exact Option.noConfusion h
    have ht : mapLookup k t = none := by
      rw [mapLookup, if_neg hk] at h
      exact h
    by_cases hj : a1 = j
    · simpa [mapDelete, hj] using ih ht
    · simpa [mapDelete, hj, mapLookup, hk] using ih ht

lemma mapLookup_mapDelete_ne {α β : Type} [DecidableEq α] {j k : α}
    (l : List (α × β)) (h : k ≠ j) :
    mapLookup k (mapDelete j l) = mapLookup k l := by
  induction l with
  | nil => simp [mapDelete]
  | cons a t ih =>
    obtain ⟨a1, a2⟩ := a
    by_cases hj : a1 = j
    · have hk : a1 ≠ k := by
        intro he
        rw [← he] at h
        exact h hj
      have h1 : mapDelete j ((a1, a2) :: t) = mapDelete j t := by
        simp [mapDelete, hj]
      rw [h1, ih]
      simp [mapLookup, hk]
    · have h1 : mapDelete j ((a1, a2) :: t) = (a1, a2) :: mapDelete j t := by
        simp [mapDelete, hj]
      rw [h1]
      by_cases hk : a1 = k
      · simp [mapLookup, hk]
      · simp [mapLookup, hk, ih]

lemma mapLookup_eq_some_of_mem_nodup {α β : Type} [DecidableEq α]
    {l : List (α × β)} {k : α} {v : β} (hnd : (l.map Prod.fst).Nodup)
    (hm : (k, v) ∈ l) : mapLookup k l = some v := by
  induction l with
  | nil => simp at hm
  | cons a t ih =>
    obtain ⟨a1, a2⟩ := a
    have hnd2 : a1 ∉ t.map Prod.fst ∧ (t.map Prod.fst).Nodup := by
      rw [List.map_cons, List.nodup_cons] at hnd
      exact hnd
    rcases List.mem_cons.mp hm with h | h
    · rw [← h]
      simp [mapLookup]
    · have hk : a1 ≠ k := by
        intro he
        exact hnd2.1 (he ▸ List.mem_map.mpr ⟨(k, v), h, rfl⟩)
      simp [mapLookup, hk, ih hnd2.2 h]

lemma length_mapDelete_of_mem_nodup {α β : Type} [DecidableEq α] {l : List (α × β)}
    {k : α} {v : β} (hnd : (l.map Prod.fst).Nodup) (hm : (k, v) ∈ l) :
    (mapDelete k l).length = l.length - 1 := by
  induction l with
  | nil => simp at hm
  | cons a t ih =>
    obtain ⟨a1, a2⟩ := a
    have hnd2 : a1 ∉ t.map Prod.fst ∧ (t.map Prod.fst).Nodup := by
      rw [List.map_cons, List.nodup_cons] at hnd
      exact hnd
    rcases List.mem_cons.mp hm with h | h
    · have hk : a1 = k := by
        have := congrArg Prod.fst h.symm
        simpa using this
      have hfe : mapDelete k t = t := by
        apply List.filter_eq_self.mpr
        intro e he
        have hek2 : e.1 ≠ k := by
          intro hek
          exact hnd2.1 (by rw [hk, ← hek]; exact List.mem_map.mpr ⟨e, he, rfl⟩)
        simpa using hek2
      have hstep : mapDelete k ((a1, a2) :: t) = mapDelete k t := by
        simp [mapDelete, hk]
      rw [hstep, hfe]
      simp
    · have hk : a1 ≠ k := by
        intro he
        exact hnd2.1 (he ▸ List.mem_map.mpr ⟨(k, v), h, rfl⟩)
      have ht := ih hnd2.2 h
      have hlen : 1 ≤ t.length := by
        rcases t with _ | _
        · simp at h
        · simp
      have hstep : mapDelete k ((a1, a2) :: t) = (a1, a2) :: mapDelete k t := by
        simp [mapDelete, hk]
      rw [hstep]
      simp only [List.length_cons, ht]
      omega

lemma mem_of_mem_mapDelete {α β : Type} [DecidableEq α] (k : α) (l : List (α × β))
    {e : α × β} (h : e ∈ mapDelete k l) : e ∈ l :=
  List.mem_of_mem_filter h

/-! ## Watch-session pool (src/utils/monitor-pool.js) -/

/-- One registered watcher record (monitor-pool.js lines 127-137).  The
chokidar watcher instance is opaque to the pool logic and is modelled
as Unit; generateWatcherId is modelled as a fresh counter (the JS id is
a timestamp-plus-random string assumed unique). -/
structure WatcherInfo where
  path : FPath
  wtype : String
  processId : String
  createdAt : Int
  lastUsedAt : Int
  useCount : Nat
deriving DecidableEq, Repr

/-- The MONITOR_POOL module state (monitor-pool.js lines 10-33), with the
stats record flattened into the fields created/closed/rejected/
activeCount/processMap. -/
structure PoolState where
  watchers : List (Nat × WatcherInfo)
  pathToId : List (FPath × List Nat)
  maxWatchers : Nat
  maxPerPath : Nat
  maxPerProcess : Nat
  created : Nat
  closed : Nat
  rejected : Nat
  activeCount : Nat
  processMap : List (String × Nat)
  maxIdleTime : Int
  nextId : Nat
deriving DecidableEq, Repr

/-- removeWatcher (monitor-pool.js lines 164-208): close the watcher
instance (a pure no-op here), remove the id from the path index
(dropping the path key when its set becomes empty), decrement or drop
the per-process count, remove the record, and bump the closed counter.
Returns false for an unknown id. -/
def removeWatcher (wid : Nat) (p : PoolState) : Bool × PoolState :=
  match mapLookup wid p.watchers with
  | none => (false, p)
  | some info =>
    let pt :=
      match mapLookup info.path p.pathToId with
      | none => p.pathToId
      | some ids =>
        let ids2 := setDelete wid ids
        if ids2 = [] then mapDelete info.path p.pathToId
        else mapSet info.path ids2 p.pathToId
    let procCount := (mapLookup info.processId p.processMap).getD 0
    let pm :=
      if procCount > 1 then mapSet info.processId (procCount - 1) p.processMap
      else mapDelete info.processId p.processMap
    let ws := mapDelete wid p.watchers
    (true, { p with watchers := ws, pathToId := pt, processMap := pm,
                    closed := p.closed + 1, activeCount := ws.length })

/-- The loop of removeOldestWatcher (monitor-pool.js lines 290-299) and
of evictFromDirCache (dir-tools.js lines 532-541): scan the entries
keeping the first key whose measure is strictly below the running
minimum, which starts at the current Date.now(). -/
def findMinAux {α β : Type} (f : β → Int) : List (α × β) → Int → Option α → Option α
  | [], _, best => best
  | (i, b) :: rest, t, best =>
    if f b < t then findMinAux f rest (f b) (some i)
    else findMinAux f rest t best

/-- removeOldestWatcher (monitor-pool.js lines 285-308). -/
def removeOldestWatcher (now : Int) (p : PoolState) : Bool × PoolState :=
  if p.watchers = [] then (false, p)
  else
    match findMinAux (fun info => info.createdAt) p.watchers now none with
    | some oid => removeWatcher oid p
    | none => (false, p)

/-- The full-pool phase of addWatcher (monitor-pool.js lines 94-101):
when the pool is at or over maxWatchers, bump the rejected counter and
attempt one eviction of the earliest-created record. -/
def addWatcherPreLimit (now : Int) (p : PoolState) : PoolState :=
  if p.watchers.length ≥ p.maxWatchers then
    (removeOldestWatcher now { p with rejected := p.rejected + 1 }).2
  else p

/-- addWatcher (monitor-pool.js lines 84-157).  The falsy-parameter
guard on line 86 rejects only the empty-string path and a null watcher
instance, neither of which an FPath or the Unit instance denotes;
path.normalize (line 92) is the identity on component lists. -/
def addWatcher (targetPath : FPath) (wtype processId : String) (now : Int)
    (p : PoolState) : Option WatcherInfo × PoolState :=
  let p1 := addWatcherPreLimit now p
  let pathWatcherCount := ((mapLookup targetPath p1.pathToId).getD []).length
  if pathWatcherCount ≥ p1.maxPerPath then
    (none, { p1 with rejected := p1.rejected + 1 })
  else
    let processWatcherCount := (mapLookup processId p1.processMap).getD 0
    if processWatcherCount ≥ p1.maxPerProcess then
      (none, { p1 with rejected := p1.rejected + 1 })
    else
      let wid := p1.nextId
      let info : WatcherInfo :=
        { path := targetPath, wtype := wtype, processId := processId,
          createdAt := now, lastUsedAt := now, useCount := 0 }
      let ws := p1.watchers ++ [(wid, info)]
      (some info,
        { p1 with
          watchers := ws,
          pathToId := mapSet targetPath
            (setAdd wid ((mapLookup targetPath p1.pathToId).getD [])) p1.pathToId,
          processMap := mapSet processId (processWatcherCount + 1) p1.processMap,
          created := p1.created + 1,
          activeCount := ws.length,
          nextId := p1.nextId + 1 })

/-- cleanupIdleWatchers (monitor-pool.js lines 254-280): collect the
records idle longer than maxIdleTime and remove them, counting the
successful removals. -/
def cleanupIdleWatchers (now : Int) (p : PoolState) : Nat × PoolState :=
  let idle := (p.watchers.filter (fun e => e.2.lastUsedAt < now - p.maxIdleTime)).map Prod.fst
  idle.foldl
    (fun acc wid =>
      let r := removeWatcher wid acc.2
      (if r.1 then acc.1 + 1 else acc.1, r.2))
    (0, p)

/-- An empty pool with the given limits (the MONITOR_POOL initial state,
monitor-pool.js lines 10-33). -/
def mkPool (maxWatchers maxPerPath maxPerProcess : Nat) : PoolState :=
  { watchers := [], pathToId := [], maxWatchers := maxWatchers,
    maxPerPath := maxPerPath, maxPerProcess := maxPerProcess,
    created := 0, closed := 0, rejected := 0, activeCount := 0,
    processMap := [], maxIdleTime := 7200000, nextId := 0 }

/-! ### Lemmas about the minimum-scan loop and removal -/

lemma findMinAux_eq_of_not_lt {α β : Type} (f : β → Int) :
    ∀ (l : List (α × β)) (t : Int) (b : Option α),
      (∀ e ∈ l, ¬ f e.2 < t) → findMinAux f l t b = b := by
  intro l
  induction l with
  | nil => intro t b _; rfl
  | cons a rest ih =>
    intro t b h
    have ha : ¬ f a.2 < t := h a (List.mem_cons_self a rest)
    obtain ⟨a1, a2⟩ := a
    simp only [findMinAux, if_neg ha]
    exact ih t b (fun e he => h e (List.mem_cons_of_mem _ he))

lemma findMinAux_spec {α β : Type} (f : β → Int) :
    ∀ (l : List (α × β)) (t : Int) (b : Option α),
      (∃ e ∈ l, f e.2 < t) →
      ∃ i bi, findMinAux f l t b = some i ∧ (i, bi) ∈ l ∧ f bi < t ∧
        ∀ e ∈ l, f bi ≤ f e.2 := by
  intro l
  induction l with
  | nil => intro t b h; simp at h
  | cons a rest ih =>
    intro t b h
    obtain ⟨a1, a2⟩ := a
    by_cases ha : f a2 < t
    · simp only [findMinAux, if_pos ha]
      by_cases hr : ∃ e ∈ rest, f e.2 < f a2
      · obtain ⟨i, bi, heq, hmem, hlt, hmin⟩ := ih (f a2) (some a1) hr
        refine ⟨i, bi, heq, List.mem_cons_of_mem _ hmem, lt_trans hlt ha, ?_⟩
        intro e he
        rcases List.mem_cons.mp he with he1 | he2
        · rw [he1]; exact le_of_lt hlt
        · exact hmin e he2
      · push_neg at hr
        have heq := findMinAux_eq_of_not_lt f rest (f a2) (some a1)
          (fun e he => not_lt.mpr (hr e he))
        refine ⟨a1, a2, heq, List.mem_cons_self _ _, ha, ?_⟩
        intro e he
        rcases List.mem_cons.mp he with he1 | he2
        · rw [he1]
        · exact hr e he2
    · simp only [findMinAux, if_neg ha]
      have hrest : ∃ e ∈ rest, f e.2 < t := by
        obtain ⟨e, he, hlt⟩ := h
        rcases List.mem_cons.mp he with he1 | he2
        · rw [he1] at hlt
          exact absurd hlt ha
        · exact ⟨e, he2, hlt⟩
      obtain ⟨i, bi, heq, hmem, hlt, hmin⟩ := ih t b hrest
      refine ⟨i, bi, heq, List.mem_cons_of_mem _ hmem, hlt, ?_⟩
      intro e he
      rcases List.mem_cons.mp he with he1 | he2
      · rw [he1]
        have : ¬ f a2 < t := ha
        exact le_trans (le_of_lt hlt) (not_lt.mp this)
      · exact hmin e he2

lemma removeWatcher_watchers_of_lookup {wid : Nat} {p : PoolState} {info : WatcherInfo}
    (h : mapLookup wid p.watchers = some info) :
    (removeWatcher wid p).2.watchers = mapDelete wid p.watchers := by
  simp only [removeWatcher, h]

lemma removeWatcher_preserves_rejected (wid : Nat) (p : PoolState) :
    (removeWatcher wid p).2.rejected = p.rejected := by
  unfold removeWatcher
  cases mapLookup wid p.watchers <;> rfl

lemma removeWatcher_watchers_subset (wid : Nat) (p : PoolState) :
    ∀ e ∈ (removeWatcher wid p).2.watchers, e ∈ p.watchers := by
  unfold removeWatcher
  cases h : mapLookup wid p.watchers with
  | none => intro e he; exact he
  | some info => intro e he; exact mem_of_mem_mapDelete wid p.watchers he

lemma removeOldestWatcher_preserves_rejected (now : Int) (p : PoolState) :
    (removeOldestWatcher now p).2.rejected = p.rejected := by
  unfold removeOldestWatcher
  by_cases h : p.watchers = []
  · simp [h]
  · simp only [if_neg h]
    cases findMinAux (fun info => info.createdAt) p.watchers now none with
    | none => rfl
    | some oid => exact removeWatcher_preserves_rejected oid p

lemma removeOldestWatcher_watchers_subset (now : Int) (p : PoolState) :
    ∀ e ∈ (removeOldestWatcher now p).2.watchers, e ∈ p.watchers := by
  unfold removeOldestWatcher
  by_cases h : p.watchers = []
  · simp [h]
  · simp only [if_neg h]
    cases findMinAux (fun info => info.createdAt) p.watchers now none with
    | none => intro e he; exact he
    | some oid => exact removeWatcher_watchers_subset oid p

/-- removeOldestWatcher removes exactly the record with the pool-wide
minimal createdAt, provided some record was created strictly before the
current time. -/
lemma removeOldestWatcher_spec (now : Int) (q : PoolState)
    (hnd : (q.watchers.map Prod.fst).Nodup)
    (hex : ∃ e ∈ q.watchers, e.2.createdAt < now) :
    ∃ i info, (i, info) ∈ q.watchers ∧ info.createdAt < now ∧
      (∀ e ∈ q.watchers, info.createdAt ≤ e.2.createdAt) ∧
      (removeOldestWatcher now q).2.watchers = mapDelete i q.watchers := by
  obtain ⟨e0, he0, hlt0⟩ := hex
  have hne : q.watchers ≠ [] := by
    intro h; rw [h] at he0; simp at he0
  obtain ⟨i, bi, heq, hmem, hlt, hmin⟩ :=
    findMinAux_spec (fun info => info.createdAt) q.watchers now none ⟨e0, he0, hlt0⟩
  have hlook : mapLookup i q.watchers = some bi := mapLookup_eq_some_of_mem_nodup hnd hmem
  refine ⟨i, bi, hmem, hlt, hmin, ?_⟩
  unfold removeOldestWatcher
  simp only [if_neg hne, heq]
  exact removeWatcher_watchers_of_lookup hlook

/-! ### Pool claim theorems -/

lemma addWatcherPreLimit_rejected (now : Int) (p : PoolState) :
    (addWatcherPreLimit now p).rejected =
      (if p.watchers.length ≥ p.maxWatchers then p.rejected + 1 else p.rejected) := by
  unfold addWatcherPreLimit
  by_cases h : p.watchers.length ≥ p.maxWatchers
  · simp only [if_pos h]
    exact removeOldestWatcher_preserves_rejected now { p with rejected := p.rejected + 1 }
  · simp only [if_neg h]

lemma addWatcherPreLimit_watchers_subset (now : Int) (p : PoolState) :
    ∀ e ∈ (addWatcherPreLimit now p).watchers, e ∈ p.watchers := by
  unfold addWatcherPreLimit
  by_cases h : p.watchers.length ≥ p.maxWatchers
  · simp only [if_pos h]
    intro e he
    exact removeOldestWatcher_watchers_subset now { p with rejected := p.rejected + 1 } e he
  · simp only [if_neg h]
    intro e he
    exact he

/-- The pool after two same-tick registrations against maxWatchers = 1:
register path a at time 0, then path b also at time 0. -/
def c1pool : PoolState :=
  (addWatcher ["b"] ("file") ("main") 0
    ((addWatcher ["a"] ("file") ("main") 0 (mkPool 1 5 50)).2)).2

/-- C1: the claim says the number of active watch records never exceeds
maxWatchers.  The code violates this: with maxWatchers = 1, a second
addWatcher call issued at the same Date.now() tick as the first finds
the pool full, but removeOldestWatcher initializes its minimum to the
current time and compares with a strict less-than, so the record created
at this very tick is not evicted, and the new record is inserted anyway:
the pool ends with 2 records while maxWatchers is 1. -/
theorem pool_exceeds_maxWatchers_on_same_tick :
    c1pool.watchers.length = 2 ∧ c1pool.maxWatchers = 1 ∧ c1pool.closed = 0 := by
  decide

/-- Pool for the C2 counterexample: maxWatchers = 2, maxPerPath = 1;
path a registered at time 0 and path b at time 1. -/
def c2step2 : PoolState :=
  (addWatcher ["b"] ("file") ("main") 1
    ((addWatcher ["a"] ("file") ("main") 0 (mkPool 2 1 50)).2)).2

/-- The result of registering path b again at time 2 against c2step2. -/
def c2res : Option WatcherInfo × PoolState :=
  addWatcher ["b"] ("file") ("main") 2 c2step2

/-- C2 counterexample: the claim says that after the eviction the new
record is admitted and the pool size is again exactly maxWatchers.  Here
the full pool evicts the earliest-created record (closed = 1), but the
new registration is then rejected by the per-path limit: the result is
none and the pool size is maxWatchers - 1, not maxWatchers. -/
theorem addWatcher_eviction_without_admission :
    c2res.1 = none ∧ c2res.2.closed = 1 ∧ c2res.2.watchers.length = 1 ∧
      c2res.2.maxWatchers = 2 := by
  decide

/-- C2 (amended): if addWatcher is called while the pool holds exactly
maxWatchers records and at least one record was created strictly before
the current time, exactly one eviction occurs and its victim is a record
with the pool-wide earliest createdAt; if the call is then admitted the
pool size is again exactly maxWatchers, and if it is rejected by the
per-path or per-process limit the pool size is maxWatchers - 1. -/
theorem addWatcher_full_evicts_earliest
    (p : PoolState) (tp : FPath) (ty pid : String) (now : Int)
    (hfull : p.watchers.length = p.maxWatchers)
    (hnd : (p.watchers.map Prod.fst).Nodup)
    (hold : p.watchers.any (fun e => decide (e.2.createdAt < now)) = true) :
    ∃ i info, (i, info) ∈ p.watchers ∧
      (∀ e ∈ p.watchers, info.createdAt ≤ e.2.createdAt) ∧
      (addWatcherPreLimit now p).watchers = mapDelete i p.watchers ∧
      ((addWatcher tp ty pid now p).1.isSome = true →
        (addWatcher tp ty pid now p).2.watchers.length = p.maxWatchers) ∧
      ((addWatcher tp ty pid now p).1 = none →
        (addWatcher tp ty pid now p).2.watchers.length = p.maxWatchers - 1) := by
  have hex : ∃ e ∈ p.watchers, e.2.createdAt < now := by
    simpa [List.any_eq_true, decide_eq_true_eq] using hold
  have hge : p.watchers.length ≥ p.maxWatchers := le_of_eq hfull.symm
  have hq : ({ p with rejected := p.rejected + 1 } : PoolState).watchers = p.watchers := rfl
  obtain ⟨i, info, hmem, hlt, hmin, heq⟩ :=
    removeOldestWatcher_spec now { p with rejected := p.rejected + 1 }
      (by rw [hq]; exact hnd) (by rw [hq]; exact hex)
  rw [hq] at hmem hmin heq
  have hpre : (addWatcherPreLimit now p).watchers = mapDelete i p.watchers := by
    unfold addWatcherPreLimit
    rw [if_pos hge]
    exact heq
  have hlen1 : (addWatcherPreLimit now p).watchers.length = p.maxWatchers - 1 := by
    rw [hpre, length_mapDelete_of_mem_nodup hnd hmem, hfull]
  have hmax1 : 1 ≤ p.maxWatchers := by
    have : p.watchers ≠ [] := by
      intro h
      rw [h] at hmem
      simp at hmem
    have hl : 1 ≤ p.watchers.length := List.length_pos.mpr this
    omega
  refine ⟨i, info, hmem, hmin, hpre, ?_, ?_⟩
  · intro hres
    simp only [addWatcher] at hres ⊢
    by_cases hc1 : ((mapLookup tp (addWatcherPreLimit now p).pathToId).getD []).length ≥
        (addWatcherPreLimit now p).maxPerPath
    · rw [if_pos hc1] at hres
      simp at hres
    · rw [if_neg hc1] at hres ⊢
      by_cases hc2 : (mapLookup pid (addWatcherPreLimit now p).processMap).getD 0 ≥
          (addWatcherPreLimit now p).maxPerProcess
      · rw [if_pos hc2] at hres
        simp at hres
      · rw [if_neg hc2] at hres ⊢
        have hfin : ((addWatcherPreLimit now p).watchers ++
            [((addWatcherPreLimit now p).nextId,
              ({ path := tp, wtype := ty, processId := pid, createdAt := now,
                 lastUsedAt := now, useCount := 0 } : WatcherInfo))]).length
            = p.maxWatchers := by
          rw [List.length_append, hlen1]
          simp only [List.length_cons, List.length_nil]
          omega
        exact hfin
  · intro hres
    simp only [addWatcher] at hres ⊢
    by_cases hc1 : ((mapLookup tp (addWatcherPreLimit now p).pathToId).getD []).length ≥
        (addWatcherPreLimit now p).maxPerPath
    · rw [if_pos hc1] at hres ⊢
      exact hlen1
    · rw [if_neg hc1] at hres ⊢
      by_cases hc2 : (mapLookup pid (addWatcherPreLimit now p).processMap).getD 0 ≥
          (addWatcherPreLimit now p).maxPerProcess
      · rw [if_pos hc2] at hres ⊢
        exact hlen1
      · rw [if_neg hc2] at hres
        simp at hres

/-- Concrete input for the C2 witness: registering path b at time 2
against c2step2 satisfies all three hypotheses of the amended theorem. -/
theorem addWatcher_full_evicts_earliest_witness :
    ∃ i info, (i, info) ∈ c2step2.watchers ∧
      (∀ e ∈ c2step2.watchers, info.createdAt ≤ e.2.createdAt) ∧
      (addWatcherPreLimit 2 c2step2).watchers = mapDelete i c2step2.watchers ∧
      ((addWatcher ["b"] ("file") ("main") 2 c2step2).1.isSome = true →
        (addWatcher ["b"] ("file") ("main") 2 c2step2).2.watchers.length =
          c2step2.maxWatchers) ∧
      ((addWatcher ["b"] ("file") ("main") 2 c2step2).1 = none →
        (addWatcher ["b"] ("file") ("main") 2 c2step2).2.watchers.length =
          c2step2.maxWatchers - 1) :=
  addWatcher_full_evicts_earliest c2step2 ["b"] ("file") ("main") 2
    (by decide) (by decide) (by decide)

/-- Results of registering path a at time 0 on an empty pool with
maxWatchers = 1, then path b at time 1. -/
def c9step1 : Option WatcherInfo × PoolState :=
  addWatcher ["a"] ("file") ("main") 0 (mkPool 1 5 50)

def c9res : Option WatcherInfo × PoolState :=
  addWatcher ["b"] ("file") ("main") 1 c9step1.2

/-- C9 counterexample: the claim says stats().rejected equals the number
of register calls that returned Rejected.  Here both calls return a
record (no call returned Rejected), yet rejected = 1, because addWatcher
increments the rejected counter whenever it finds the pool full, even
when it then evicts and admits. -/
theorem rejected_counter_overcounts :
    c9step1.1.isSome = true ∧ c9res.1.isSome = true ∧ c9res.2.rejected = 1 := by
  decide

/-- C9 (amended): whenever addWatcher finds the per-path count at
maxPerPath, or the per-path count below it but the per-owner count at
maxPerProcess (both measured after the full-pool phase), it returns null
without inserting any record, and the rejected counter ends at
rejected + 1, or at rejected + 2 when the call also found the pool full;
so rejected counts these events, not the calls that returned null. -/
theorem addWatcher_limit_rejection
    (p : PoolState) (tp : FPath) (ty pid : String) (now : Int)
    (hlim :
      ((mapLookup tp (addWatcherPreLimit now p).pathToId).getD []).length ≥
          (addWatcherPreLimit now p).maxPerPath ∨
        (((mapLookup tp (addWatcherPreLimit now p).pathToId).getD []).length <
            (addWatcherPreLimit now p).maxPerPath ∧
          (mapLookup pid (addWatcherPreLimit now p).processMap).getD 0 ≥
            (addWatcherPreLimit now p).maxPerProcess)) :
    (addWatcher tp ty pid now p).1 = none ∧
    (∀ e ∈ (addWatcher tp ty pid now p).2.watchers, e ∈ p.watchers) ∧
    (addWatcher tp ty pid now p).2.rejected =
      (if p.watchers.length ≥ p.maxWatchers then p.rejected + 2 else p.rejected + 1) := by
  have hrej := addWatcherPreLimit_rejected now p
  have hsub := addWatcherPreLimit_watchers_subset now p
  simp only [addWatcher]
  rcases hlim with hc1 | ⟨hc1, hc2⟩
  · rw [if_pos hc1]
    refine ⟨rfl, hsub, ?_⟩
    simp only []
    rw [hrej]
    by_cases h : p.watchers.length ≥ p.maxWatchers <;> simp [h]
  · rw [if_neg (not_le.mpr hc1), if_pos hc2]
    refine ⟨rfl, hsub, ?_⟩
    simp only []
    rw [hrej]
    by_cases h : p.watchers.length ≥ p.maxWatchers <;> simp [h]

/-- Pool for the C9 witness: maxPerPath = 1 and path a already
registered, so registering path a again hits the per-path limit. -/
def c9wpool : PoolState :=
  (addWatcher ["a"] ("file") ("main") 0 (mkPool 5 1 50)).2

/-- Concrete input discharging the hypothesis of the C9 amended
theorem. -/
theorem addWatcher_limit_rejection_witness :
    (addWatcher ["a"] ("file") ("main") 1 c9wpool).1 = none ∧
    (∀ e ∈ (addWatcher ["a"] ("file") ("main") 1 c9wpool).2.watchers,
      e ∈ c9wpool.watchers) ∧
    (addWatcher ["a"] ("file") ("main") 1 c9wpool).2.rejected =
      (if c9wpool.watchers.length ≥ c9wpool.maxWatchers then c9wpool.rejected + 2
       else c9wpool.rejected + 1) :=
  addWatcher_limit_rejection c9wpool ["a"] ("file") ("main") 1 (by decide)

/-! ## File-content cache (file-tools.js) and directory-listing cache
(dir-tools.js) -/

/-- One file-cache entry (file-tools.js lines 733-737). -/
structure FileCacheItem where
  content : String
  timestamp : Int
  lastAccess : Int
deriving DecidableEq, Repr

/-- The FILE_CACHE module state (file-tools.js lines 23-37), with
FILE_CACHE.monitoring.enabled as monitoringEnabled (its watchers and
monitoredPaths sets are written only by the unused clearAllFileMonitors
path and are omitted). -/
structure FileCacheState where
  enabled : Bool
  items : List (FPath × FileCacheItem)
  size : Int
  maxSize : Int
  maxAge : Int
  hits : Nat
  misses : Nat
  evictions : Nat
  monitoringEnabled : Bool
deriving DecidableEq, Repr

/-- The CACHE_MONITORS state (file-tools.js lines 40-44) and likewise
the DIR_MONITORS state (dir-tools.js lines 34-38); the watchers Map is
modelled by its key set, the chokidar handles being opaque. -/
structure MonitorsState where
  enabled : Bool
  watchers : List FPath
  monitoredPaths : List FPath
deriving DecidableEq, Repr

/-- The payload of a directory-listing entry is opaque to the cache
logic; the entry names stand in for the itemInfo array. -/
abbrev DirListing := List String

/-- One dir-cache entry (dir-tools.js lines 520-524). -/
structure DirCacheItem where
  content : DirListing
  timestamp : Int
  lastAccessed : Int
deriving DecidableEq, Repr

/-- The DIR_CACHE module state (dir-tools.js lines 21-31); maxSize
counts entries. -/
structure DirCacheState where
  enabled : Bool
  maxSize : Nat
  maxAge : Int
  items : List (FPath × DirCacheItem)
  hits : Nat
  misses : Nat
  evictions : Nat
deriving DecidableEq, Repr

/-- Combined module state of file-tools.js and dir-tools.js:
FILE_CACHE, CACHE_MONITORS, DIR_CACHE, DIR_MONITORS, and the
config.fileOperations.cacheMonitoring.enabled flag. -/
structure St where
  fc : FileCacheState
  mon : MonitorsState
  dir : DirCacheState
  dirMon : MonitorsState
  cfgCacheMonitoring : Bool
deriving DecidableEq, Repr

/-- LARGE_FILE_THRESHOLD.read (file-tools.js line 48). -/
def largeFileThresholdRead : Int := 10 * 1024 * 1024

/-- monitorFileForCache (file-tools.js lines 76-137): guarded by
FILE_CACHE.enabled and the config flag, initializes CACHE_MONITORS,
skips already-monitored paths, and otherwise records the watcher
created by watchTools.setFileChangeCallback (creation modelled as
succeeding; the created chokidar watcher is registered in the monitor
pool by setFileChangeCallback). -/
def monitorFileForCache (p : FPath) (st : St) : St :=
  if ¬ (st.fc.enabled = true ∧ st.cfgCacheMonitoring = true) then st
  else
    let st := if st.mon.enabled = false then
        { st with mon := { st.mon with enabled := true } } else st
    if p ∈ st.mon.monitoredPaths then st
    else
      { st with mon := { st.mon with
          watchers := setAdd p st.mon.watchers,
          monitoredPaths := setAdd p st.mon.monitoredPaths } }

/-- stopMonitoringFile (file-tools.js lines 143-160): remove the watcher
for the path when present; closing it also removes its record from the
monitor pool via watchTools.closeWatcher. -/
def stopMonitoringFile (p : FPath) (st : St) : St :=
  if ¬ (st.mon.enabled = true ∧ p ∈ st.mon.monitoredPaths) then st
  else if p ∈ st.mon.watchers then
    { st with mon := { st.mon with
        watchers := setDelete p st.mon.watchers,
        monitoredPaths := setDelete p st.mon.monitoredPaths } }
  else st

/-- getFromCache (file-tools.js lines 689-719): null when disabled or
absent (counting a miss when absent); a present-but-expired entry is
deleted (stopping its monitoring first when monitoring is enabled) and
reported as null; otherwise a hit that refreshes lastAccess in place. -/
def getFromCache (p : FPath) (now : Int) (st : St) : Option String × St :=
  if st.fc.enabled = false then (none, st)
  else
    match mapLookup p st.fc.items with
    | none => (none, { st with fc := { st.fc with misses := st.fc.misses + 1 } })
    | some item =>
      if now - item.timestamp > st.fc.maxAge then
        let st := if st.fc.monitoringEnabled then stopMonitoringFile p st else st
        (none, { st with fc := { st.fc with
            items := mapDelete p st.fc.items,
            size := st.fc.size - (item.content.length : Int),
            evictions := st.fc.evictions + 1 } })
      else
        (some item.content, { st with fc := { st.fc with
            hits := st.fc.hits + 1,
            items := mapSet p { item with lastAccess := now } st.fc.items } })

/-- The eviction for-loop of ensureCacheSpace (file-tools.js lines
771-785): walk the lastAccess-ascending snapshot, deleting entries and
counting evictions, stopping as soon as there is room. -/
def evictLoop (required : Int) : List (FPath × FileCacheItem) → St → St
  | [], st => st
  | (k, item) :: rest, st =>
    let st := if st.fc.monitoringEnabled then stopMonitoringFile k st else st
    let st := { st with fc := { st.fc with
        items := mapDelete k st.fc.items,
        size := st.fc.size - (item.content.length : Int),
        evictions := st.fc.evictions + 1 } }
    if st.fc.size + required ≤ st.fc.maxSize then st
    else evictLoop required rest st

/-- Stable insertion of an entry into a lastAccess-sorted list: the
entry goes before the first later entry whose lastAccess is not
strictly smaller, so ties keep their original order. -/
def sortByLastAccessInsert (e : FPath × FileCacheItem) :
    List (FPath × FileCacheItem) → List (FPath × FileCacheItem)
  | [] => [e]
  | x :: xs =>
    if x.2.lastAccess < e.2.lastAccess then x :: sortByLastAccessInsert e xs
    else e :: x :: xs

/-- The lastAccess-ascending stable sort used by ensureCacheSpace
(file-tools.js lines 767-768); the JS array sort is stable, which a
stable insertion sort models. -/
def sortByLastAccess : List (FPath × FileCacheItem) → List (FPath × FileCacheItem)
  | [] => []
  | x :: xs => sortByLastAccessInsert x (sortByLastAccess xs)

/-- ensureCacheSpace (file-tools.js lines 761-786): when the required
space does not fit, sort the entries by lastAccess ascending and evict
from the least recently accessed until there is room. -/
def ensureCacheSpace (required : Int) (st : St) : St :=
  if st.fc.size + required ≤ st.fc.maxSize then st
  else evictLoop required (sortByLastAccess st.fc.items) st

/-- addToCache (file-tools.js lines 722-758): skip when disabled, when
the content is falsy (the empty string), or when the content is over
the large-file threshold; otherwise subtract a replaced entry size,
make room, insert with fresh timestamps, and monitor the path when
monitoring is enabled. -/
def addToCache (p : FPath) (content : String) (now : Int) (st : St) : St :=
  if st.fc.enabled = false ∨ content = "" then st
  else if (content.length : Int) > largeFileThresholdRead then st
  else
    let st :=
      match mapLookup p st.fc.items with
      | some old => { st with fc := { st.fc with
          size := st.fc.size - (old.content.length : Int) } }
      | none => st
    let st := ensureCacheSpace (content.length : Int) st
    let st := { st with fc := { st.fc with
        items := mapSet p { content := content, timestamp := now, lastAccess := now }
          st.fc.items,
        size := st.fc.size + (content.length : Int) } }
    if st.fc.monitoringEnabled then monitorFileForCache p st else st

/-- The cache-consultation step of readFile (file-tools.js lines
208-216): the read is served from the cache exactly when the cache is
enabled and getFromCache returns a truthy (non-null, non-empty) string. -/
def readFileServedFromCache (p : FPath) (now : Int) (st : St) : Bool :=
  if st.fc.enabled then
    match (getFromCache p now st).1 with
    | some c => c != ""
    | none => false
  else false

/-- monitorDirectoryForCache (dir-tools.js lines 64-125): like the file
version, guarded by DIR_CACHE.enabled and the config flag, against the
DIR_MONITORS state (watcher creation via watchTools.setDirChangeCallback
modelled as succeeding). -/
def monitorDirectoryForCache (p : FPath) (st : St) : St :=
  if ¬ (st.dir.enabled = true ∧ st.cfgCacheMonitoring = true) then st
  else
    let st := if st.dirMon.enabled = false then
        { st with dirMon := { st.dirMon with enabled := true } } else st
    if p ∈ st.dirMon.monitoredPaths then st
    else
      { st with dirMon := { st.dirMon with
          watchers := setAdd p st.dirMon.watchers,
          monitoredPaths := setAdd p st.dirMon.monitoredPaths } }

/-- stopMonitoringDirectory (dir-tools.js lines 131-148). -/
def stopMonitoringDirectory (p : FPath) (st : St) : St :=
  if ¬ (st.dirMon.enabled = true ∧ p ∈ st.dirMon.monitoredPaths) then st
  else if p ∈ st.dirMon.watchers then
    { st with dirMon := { st.dirMon with
        watchers := setDelete p st.dirMon.watchers,
        monitoredPaths := setDelete p st.dirMon.monitoredPaths } }
  else st

/-- getFromDirCache (dir-tools.js lines 487-506): null when disabled or
absent; a present-but-expired entry is deleted, its directory monitoring
stopped, and null returned; otherwise a hit that refreshes lastAccessed
in place. -/
def getFromDirCache (p : FPath) (now : Int) (st : St) : Option DirListing × St :=
  if st.dir.enabled = false ∨ (mapLookup p st.dir.items).isNone then (none, st)
  else
    match mapLookup p st.dir.items with
    | none => (none, st)
    | some item =>
      if now - item.timestamp > st.dir.maxAge then
        let st := { st with dir := { st.dir with items := mapDelete p st.dir.items } }
        (none, stopMonitoringDirectory p st)
      else
        (some item.content, { st with dir := { st.dir with
            items := mapSet p { item with lastAccessed := now } st.dir.items,
            hits := st.dir.hits + 1 } })

/-- evictFromDirCache (dir-tools.js lines 531-549): find the entry with
the least lastAccessed strictly below Date.now() (the same loop shape as
removeOldestWatcher) and, when found, delete it, stop monitoring it and
count an eviction. -/
def evictFromDirCache (now : Int) (st : St) : St :=
  match findMinAux (fun item => item.lastAccessed) st.dir.items now none with
  | some oldestPath =>
    let st := { st with dir := { st.dir with
        items := mapDelete oldestPath st.dir.items } }
    let st := stopMonitoringDirectory oldestPath st
    { st with dir := { st.dir with evictions := st.dir.evictions + 1 } }
  | none => st

/-- addToDirCache (dir-tools.js lines 509-528): skip when disabled; when
the entry count has reached maxSize run one eviction; insert with fresh
timestamps; monitor the directory. -/
def addToDirCache (p : FPath) (content : DirListing) (now : Int) (st : St) : St :=
  if st.dir.enabled = false then st
  else
    let st := if st.dir.items.length ≥ st.dir.maxSize then evictFromDirCache now st
      else st
    let st := { st with dir := { st.dir with
        items := mapSet p
          { content := content, timestamp := now, lastAccessed := now }
          st.dir.items } }
    monitorDirectoryForCache p st

/-- invalidateDirCache (dir-tools.js lines 555-578): when enabled,
delete the cached listing of the directory and of its parent (the
parent check avoids the root, whose dirname is itself). -/
def invalidateDirCache (d : FPath) (st : St) : St :=
  if st.dir.enabled = false then st
  else
    let st := if (mapLookup d st.dir.items).isSome then
        { st with dir := { st.dir with items := mapDelete d st.dir.items } }
      else st
    let parentDir := dirname d
    if parentDir ≠ d then
      if (mapLookup parentDir st.dir.items).isSome then
        { st with dir := { st.dir with items := mapDelete parentDir st.dir.items } }
      else st
    else st

/-- The file-cache monitoring callback installed by monitorFileForCache
(file-tools.js lines 103-123): on a change or unlink event for the
watched file, delete its file-cache entry when present and invalidate
the listing cache of its parent directory. -/
def applyFileChangeEvent (ev : String) (watched : FPath) (st : St) : St :=
  if ev = "change" ∨ ev = "unlink" then
    if (mapLookup watched st.fc.items).isSome then
      let st := { st with fc := { st.fc with
          items := mapDelete watched st.fc.items } }
      invalidateDirCache (dirname watched) st
    else st
  else st

/-- The directory-cache monitoring callback installed by
monitorDirectoryForCache (dir-tools.js lines 95-111): any event
invalidates the watched directory; when the changed path lies strictly
under the watched directory (the path.relative test on component lists
is the proper-prefix test) and its immediate parent is not the watched
root, that parent is invalidated as well. -/
def applyDirEvent (watched changed : FPath) (st : St) : St :=
  let st := invalidateDirCache watched st
  if changed ≠ watched ∧ watched.isPrefixOf changed then
    let parentDir := dirname changed
    if parentDir ≠ watched then invalidateDirCache parentDir st else st
  else st

/-- The cache effect of writeFile (file-tools.js lines 276-309).
Content longer than the effective stream threshold (the configured
streamThresholds.write, falling back to LARGE_FILE_THRESHOLD.write;
passed here as writeThreshold since it is configuration) is dispatched
to writeLargeFile (lines 292-294), which contains no cache code, so the
cache is untouched and any stale entry survives; otherwise a cached
path is refreshed through addToCache (lines 300-302) and an uncached
path is left alone. -/
def writeFileCacheEffect (p : FPath) (content : String) (writeThreshold now : Int)
    (st : St) : St :=
  if (content.length : Int) > writeThreshold then st
  else if st.fc.enabled = true ∧ (mapLookup p st.fc.items).isSome then
    addToCache p content now st
  else st

/-- The cache effect of appendFile (file-tools.js lines 343-376).
Content longer than the effective stream threshold (the configured
streamThresholds.append, falling back to LARGE_FILE_THRESHOLD.write;
passed here as appendThreshold) is dispatched to appendLargeFile
(lines 359-361), which contains no cache code, so the entry is not
deleted; otherwise the cached entry is deleted when present
(lines 367-369). -/
def appendFileCacheEffect (p : FPath) (content : String) (appendThreshold : Int)
    (st : St) : St :=
  if (content.length : Int) > appendThreshold then st
  else if st.fc.enabled = true ∧ (mapLookup p st.fc.items).isSome then
    { st with fc := { st.fc with items := mapDelete p st.fc.items } }
  else st

/-- The cache manipulation of deleteFile (file-tools.js lines 430-432):
delete the cached entry when present. -/
def deleteFileCacheEffect (p : FPath) (st : St) : St :=
  if st.fc.enabled = true ∧ (mapLookup p st.fc.items).isSome then
    { st with fc := { st.fc with items := mapDelete p st.fc.items } }
  else st

/-- The cache manipulation of the rename path of moveFile (file-tools.js
lines 560-566): move the source entry to the destination key. -/
def moveFileRenameCacheEffect (src dst : FPath) (st : St) : St :=
  if st.fc.enabled = true then
    match mapLookup src st.fc.items with
    | some item =>
      let st := { st with fc := { st.fc with
          items := mapSet dst item st.fc.items } }
      { st with fc := { st.fc with items := mapDelete src st.fc.items } }
    | none => st
  else st

/-- The cache manipulation of the copy-delete path of moveFile
(file-tools.js lines 581-583): delete the source entry when present. -/
def moveFileCopyDeleteCacheEffect (src : FPath) (st : St) : St :=
  if st.fc.enabled = true ∧ (mapLookup src st.fc.items).isSome then
    { st with fc := { st.fc with items := mapDelete src st.fc.items } }
  else st

/-- copyFile (file-tools.js lines 449-496) contains no cache operation
at all: its cache effect is the identity. -/
def copyFileCacheEffect (st : St) : St := st

/-! ### Preservation lemmas for the cache state -/

lemma not_mem_setDelete_self {α : Type} [DecidableEq α] (k : α) (l : List α) :
    k ∉ setDelete k l := by
  intro h
  have := List.of_mem_filter h
  simp at this

lemma stopMonitoringFile_fc (p : FPath) (st : St) :
    (stopMonitoringFile p st).fc = st.fc := by
  unfold stopMonitoringFile
  repeat' split
  all_goals rfl

lemma stopMonitoringFile_dir (p : FPath) (st : St) :
    (stopMonitoringFile p st).dir = st.dir := by
  unfold stopMonitoringFile
  repeat' split
  all_goals rfl

lemma stopMonitoringDirectory_fc (p : FPath) (st : St) :
    (stopMonitoringDirectory p st).fc = st.fc := by
  unfold stopMonitoringDirectory
  repeat' split
  all_goals rfl

lemma stopMonitoringDirectory_dir_items (p : FPath) (st : St) :
    (stopMonitoringDirectory p st).dir = st.dir := by
  unfold stopMonitoringDirectory
  repeat' split
  all_goals rfl

lemma monitorFileForCache_fc (p : FPath) (st : St) :
    (monitorFileForCache p st).fc = st.fc := by
  unfold monitorFileForCache
  try dsimp only
  repeat' split
  all_goals rfl

lemma monitorFileForCache_dir (p : FPath) (st : St) :
    (monitorFileForCache p st).dir = st.dir := by
  unfold monitorFileForCache
  try dsimp only
  repeat' split
  all_goals rfl

lemma monitorDirectoryForCache_dir_items (p : FPath) (st : St) :
    (monitorDirectoryForCache p st).dir.items = st.dir.items := by
  unfold monitorDirectoryForCache
  try dsimp only
  repeat' split
  all_goals rfl

lemma evictLoop_dir (required : Int) :
    ∀ (l : List (FPath × FileCacheItem)) (st : St),
      (evictLoop required l st).dir = st.dir := by
  intro l
  induction l with
  | nil => intro st; rfl
  | cons e rest ih =>
    intro st
    obtain ⟨k, item⟩ := e
    unfold evictLoop
    try dsimp only
    repeat' split
    all_goals first
      | (rw [ih]
         try rfl
         try simp [stopMonitoringFile_dir])
      | rfl
      | simp [stopMonitoringFile_dir]

lemma ensureCacheSpace_dir (required : Int) (st : St) :
    (ensureCacheSpace required st).dir = st.dir := by
  unfold ensureCacheSpace
  split
  · rfl
  · exact evictLoop_dir required _ st

lemma addToCache_dir (p : FPath) (content : String) (now : Int) (st : St) :
    (addToCache p content now st).dir = st.dir := by
  unfold addToCache
  try dsimp only
  repeat' split
  all_goals simp [ensureCacheSpace_dir, monitorFileForCache_dir]

lemma invalidateDirCache_fc (d : FPath) (st : St) :
    (invalidateDirCache d st).fc = st.fc := by
  unfold invalidateDirCache
  try dsimp only
  repeat' split
  all_goals rfl

lemma invalidateDirCache_mon (d : FPath) (st : St) :
    (invalidateDirCache d st).mon = st.mon := by
  unfold invalidateDirCache
  try dsimp only
  repeat' split
  all_goals rfl

lemma invalidateDirCache_dir_enabled (d : FPath) (st : St) :
    (invalidateDirCache d st).dir.enabled = st.dir.enabled := by
  unfold invalidateDirCache
  try dsimp only
  repeat' split
  all_goals rfl

lemma invalidateDirCache_lookup_self (d : FPath) (st : St)
    (hen : st.dir.enabled = true) :
    mapLookup d (invalidateDirCache d st).dir.items = none := by
  unfold invalidateDirCache
  try dsimp only
  rw [if_neg (by simp [hen])]
  by_cases h1 : (mapLookup d st.dir.items).isSome = true
  · rw [if_pos h1]
    by_cases h2 : dirname d ≠ d
    · rw [if_pos h2]
      by_cases h3 : (mapLookup (dirname d) (mapDelete d st.dir.items)).isSome = true
      · rw [if_pos h3]
        exact mapLookup_mapDelete_none _ _ _ (mapLookup_mapDelete_self d st.dir.items)
      · rw [if_neg h3]
        exact mapLookup_mapDelete_self d st.dir.items
    · rw [if_neg h2]
      exact mapLookup_mapDelete_self d st.dir.items
  · have h0 : mapLookup d st.dir.items = none := by
      cases h : mapLookup d st.dir.items
      · rfl
      · rw [h] at h1; simp at h1
    rw [if_neg h1]
    by_cases h2 : dirname d ≠ d
    · rw [if_pos h2]
      by_cases h3 : (mapLookup (dirname d) st.dir.items).isSome = true
      · rw [if_pos h3]
        exact mapLookup_mapDelete_none _ _ _ h0
      · rw [if_neg h3]
        exact h0
    · rw [if_neg h2]
      exact h0

lemma invalidateDirCache_lookup_none (d k : FPath) (st : St)
    (h : mapLookup k st.dir.items = none) :
    mapLookup k (invalidateDirCache d st).dir.items = none := by
  unfold invalidateDirCache
  try dsimp only
  by_cases he : st.dir.enabled = false
  · rw [if_pos he]
    exact h
  · rw [if_neg he]
    by_cases h1 : (mapLookup d st.dir.items).isSome = true
    · rw [if_pos h1]
      by_cases h2 : dirname d ≠ d
      · rw [if_pos h2]
        by_cases h3 : (mapLookup (dirname d) (mapDelete d st.dir.items)).isSome = true
        · rw [if_pos h3]
          exact mapLookup_mapDelete_none _ _ _ (mapLookup_mapDelete_none _ _ _ h)
        · rw [if_neg h3]
          exact mapLookup_mapDelete_none _ _ _ h
      · rw [if_neg h2]
        exact mapLookup_mapDelete_none _ _ _ h
    · rw [if_neg h1]
      by_cases h2 : dirname d ≠ d
      · rw [if_pos h2]
        by_cases h3 : (mapLookup (dirname d) st.dir.items).isSome = true
        · rw [if_pos h3]
          exact mapLookup_mapDelete_none _ _ _ h
        · rw [if_neg h3]
          exact h
      · rw [if_neg h2]
        exact h

lemma getFromCache_none_of_lookup_none (p : FPath) (now : Int) (st : St)
    (h : mapLookup p st.fc.items = none) : (getFromCache p now st).1 = none := by
  unfold getFromCache
  split
  · rfl
  · rw [h]

/-! ### Cache claim theorems -/

/-- A monitors state with nothing registered. -/
def monOff : MonitorsState := { enabled := false, watchers := [], monitoredPaths := [] }

/-- A combined state with the file d/f cached and monitored and the
listing of directory d cached. -/
def st0 : St :=
  { fc := { enabled := true,
            items := [(["d", "f"], { content := "x", timestamp := 0, lastAccess := 0 })],
            size := 1, maxSize := 100, maxAge := 60000,
            hits := 0, misses := 0, evictions := 0, monitoringEnabled := true },
    mon := { enabled := true, watchers := [["d", "f"]], monitoredPaths := [["d", "f"]] },
    dir := { enabled := true, maxSize := 100, maxAge := 30000,
             items := [(["d"], { content := ["f"], timestamp := 0, lastAccessed := 0 })],
             hits := 0, misses := 0, evictions := 0 },
    dirMon := monOff,
    cfgCacheMonitoring := true }

/-- C5: a change or unlink event delivered to the file-cache monitoring
callback for a watched path removes the file-content cache entry for
that exact path, so any later getFromCache for the path is a miss. -/
theorem change_event_invalidates_file_entry
    (ev : String) (p : FPath) (st : St) (later : Int)
    (h : ev = "change" ∨ ev = "unlink") :
    mapLookup p (applyFileChangeEvent ev p st).fc.items = none ∧
    (getFromCache p later (applyFileChangeEvent ev p st)).1 = none := by
  have hdel : mapLookup p (applyFileChangeEvent ev p st).fc.items = none := by
    unfold applyFileChangeEvent
    rw [if_pos h]
    by_cases hs : (mapLookup p st.fc.items).isSome = true
    · rw [if_pos hs]
      rw [invalidateDirCache_fc]
      exact mapLookup_mapDelete_self p st.fc.items
    · rw [if_neg hs]
      cases hl : mapLookup p st.fc.items with
      | none => rfl
      | some v => rw [hl] at hs; simp at hs
  exact ⟨hdel, getFromCache_none_of_lookup_none p later _ hdel⟩

/-- Concrete input for the C5 witness: a change event for the cached and
monitored path d/f of st0. -/
theorem change_event_invalidates_file_entry_witness :
    mapLookup ["d", "f"] (applyFileChangeEvent ("change") ["d", "f"] st0).fc.items
        = none ∧
    (getFromCache ["d", "f"] 1 (applyFileChangeEvent ("change") ["d", "f"] st0)).1
        = none :=
  change_event_invalidates_file_entry ("change") ["d", "f"] st0 1 (Or.inl rfl)

/-- C6: any event under a watched directory invalidates that directory
listing entry, and the listing entry of the changed path immediate
parent is invalidated as well (trivially the same entry when the parent
is the watched root). -/
theorem dir_event_invalidates_listing
    (watched changed : FPath) (st : St)
    (hen : st.dir.enabled = true)
    (hpre : watched.isPrefixOf changed = true)
    (hne : changed ≠ watched) :
    mapLookup watched (applyDirEvent watched changed st).dir.items = none ∧
    mapLookup (dirname changed) (applyDirEvent watched changed st).dir.items = none := by
  unfold applyDirEvent
  try dsimp only
  rw [if_pos (And.intro hne hpre)]
  have h1 : mapLookup watched (invalidateDirCache watched st).dir.items = none :=
    invalidateDirCache_lookup_self watched st hen
  have hen1 : (invalidateDirCache watched st).dir.enabled = true := by
    rw [invalidateDirCache_dir_enabled]
    exact hen
  by_cases hp : dirname changed ≠ watched
  · rw [if_pos hp]
    exact ⟨invalidateDirCache_lookup_none _ _ _ h1,
      invalidateDirCache_lookup_self _ _ hen1⟩
  · rw [if_neg hp]
    push_neg at hp
    exact ⟨h1, by rw [hp]; exact h1⟩

/-- Concrete input for the C6 witness: an event for d/x/y under the
watched directory d of st0. -/
theorem dir_event_invalidates_listing_witness :
    mapLookup ["d"] (applyDirEvent ["d"] ["d", "x", "y"] st0).dir.items = none ∧
    mapLookup (dirname ["d", "x", "y"])
        (applyDirEvent ["d"] ["d", "x", "y"] st0).dir.items = none :=
  dir_event_invalidates_listing ["d"] ["d", "x", "y"] st0 (by decide) (by decide)
    (by decide)

/-- C7: in both the file-content cache and the directory-listing cache,
a present entry whose age exceeds maxAge is never returned by get: the
get call reports a miss and removes the entry from the cache during the
call itself. -/
theorem expired_entry_never_returned :
    (∀ (st : St) (p : FPath) (now : Int) (item : FileCacheItem),
      st.fc.enabled = true → mapLookup p st.fc.items = some item →
      now - item.timestamp > st.fc.maxAge →
      (getFromCache p now st).1 = none ∧
        mapLookup p (getFromCache p now st).2.fc.items = none) ∧
    (∀ (st : St) (p : FPath) (now : Int) (item : DirCacheItem),
      st.dir.enabled = true → mapLookup p st.dir.items = some item →
      now - item.timestamp > st.dir.maxAge →
      (getFromDirCache p now st).1 = none ∧
        mapLookup p (getFromDirCache p now st).2.dir.items = none) := by
  constructor
  · intro st p now item hen hl hexp
    unfold getFromCache
    rw [if_neg (by simp [hen])]
    rw [hl]
    try dsimp only
    rw [if_pos hexp]
    exact ⟨rfl, mapLookup_mapDelete_self p _⟩
  · intro st p now item hen hl hexp
    unfold getFromDirCache
    rw [if_neg (by simp [hen, hl])]
    rw [hl]
    try dsimp only
    rw [if_pos hexp]
    constructor
    · rfl
    · rw [stopMonitoringDirectory_dir_items]
      exact mapLookup_mapDelete_self p _

/-- Concrete inputs for the C7 witness: the entries of st0 read past
their maxAge. -/
theorem expired_entry_never_returned_witness :
    ((getFromCache ["d", "f"] 70000 st0).1 = none ∧
      mapLookup ["d", "f"] (getFromCache ["d", "f"] 70000 st0).2.fc.items = none) ∧
    ((getFromDirCache ["d"] 40000 st0).1 = none ∧
      mapLookup ["d"] (getFromDirCache ["d"] 40000 st0).2.dir.items = none) :=
  ⟨expired_entry_never_returned.1 st0 ["d", "f"] 70000
      { content := "x", timestamp := 0, lastAccess := 0 }
      (by decide) (by decide) (by decide),
    expired_entry_never_returned.2 st0 ["d"] 40000
      { content := ["f"], timestamp := 0, lastAccessed := 0 }
      (by decide) (by decide) (by decide)⟩

/-- A state whose only file-cache entry has empty-string content. -/
def stEmpty : St :=
  { st0 with fc := { st0.fc with
      items := [(["e"], { content := "", timestamp := 0, lastAccess := 0 })] } }

/-- C10: addToCache with empty content leaves the cache unchanged (the
falsy-content guard), and the readFile cache consultation treats a
cached empty string as falsy, so a file whose content is the empty
string is never served from the cache. -/
theorem empty_content_never_cached :
    (∀ (st : St) (p : FPath) (now : Int), addToCache p ("") now st = st) ∧
    (∀ (st : St) (p : FPath) (now : Int) (item : FileCacheItem),
      mapLookup p st.fc.items = some item → item.content = "" →
      readFileServedFromCache p now st = false) := by
  constructor
  · intro st p now
    unfold addToCache
    rw [if_pos (Or.inr rfl)]
  · intro st p now item hl hc
    unfold readFileServedFromCache
    by_cases hen : st.fc.enabled = true
    · rw [if_pos hen]
      unfold getFromCache
      rw [if_neg (by simp [hen])]
      rw [hl]
      try dsimp only
      by_cases hexp : now - item.timestamp > st.fc.maxAge
      · rw [if_pos hexp]
      · rw [if_neg hexp]
        rw [hc]
        rfl
    · rw [if_neg hen]

/-- Concrete inputs for the C10 witness. -/
theorem empty_content_never_cached_witness :
    addToCache ["q"] ("") 5 st0 = st0 ∧
    readFileServedFromCache ["e"] 1 stEmpty = false :=
  ⟨empty_content_never_cached.1 st0 ["q"] 5,
    empty_content_never_cached.2 stEmpty ["e"] 1
      { content := "", timestamp := 0, lastAccess := 0 } (by decide) rfl⟩

/-- C3 counterexample: the claim says every successful write operation
removes the cache entry for each affected path and additionally removes
the parent directory listing entry before returning.  writeFile on a
cached path (below the stream threshold) leaves an entry for the path
in place (it refreshes it), and deleteFile does not touch the
directory-listing cache even though the parent directory listing of the
deleted file is cached. -/
theorem writeFile_keeps_cache_entry :
    (mapLookup ["d", "f"]
        (writeFileCacheEffect ["d", "f"] ("y") 5242880 5 st0).fc.items).isSome
        = true ∧
    (deleteFileCacheEffect ["d", "f"] st0).dir.items = st0.dir.items ∧
    (mapLookup (dirname ["d", "f"]) st0.dir.items).isSome = true := by
  decide

/-- C3 (amended): deleteFile and, for content within the append stream
threshold, appendFile remove the file-cache entry of the affected path
synchronously, and the copy-delete path of moveFile removes the source
entry; for content within the write stream threshold, writeFile
refreshes a cached entry in place with the new content rather than
removing it; content above the respective stream threshold is written
by the streaming path, which leaves the cache completely untouched (a
stale entry survives); the rename path of moveFile moves the source
entry to the destination key; copyFile leaves the file cache untouched;
and none of these operations invalidates any directory-listing cache
entry. -/
theorem write_ops_cache_effects :
    (∀ (st : St) (p : FPath), st.fc.enabled = true →
      mapLookup p (deleteFileCacheEffect p st).fc.items = none ∧
      (deleteFileCacheEffect p st).dir = st.dir) ∧
    (∀ (st : St) (p : FPath) (content : String) (thr : Int),
      st.fc.enabled = true → ¬ ((content.length : Int) > thr) →
      mapLookup p (appendFileCacheEffect p content thr st).fc.items = none ∧
      (appendFileCacheEffect p content thr st).dir = st.dir) ∧
    (∀ (st : St) (p : FPath) (content : String) (thr : Int),
      (content.length : Int) > thr →
      appendFileCacheEffect p content thr st = st) ∧
    (∀ (st : St) (p : FPath) (content : String) (wt now : Int)
        (old : FileCacheItem),
      st.fc.enabled = true → mapLookup p st.fc.items = some old →
      content ≠ "" → ¬ ((content.length : Int) > wt) →
      ¬ ((content.length : Int) > largeFileThresholdRead) →
      mapLookup p (writeFileCacheEffect p content wt now st).fc.items =
        some { content := content, timestamp := now, lastAccess := now } ∧
      (writeFileCacheEffect p content wt now st).dir = st.dir) ∧
    (∀ (st : St) (p : FPath) (content : String) (wt now : Int),
      (content.length : Int) > wt →
      writeFileCacheEffect p content wt now st = st) ∧
    (∀ st : St, copyFileCacheEffect st = st) ∧
    (∀ (st : St) (src dst : FPath) (item : FileCacheItem),
      st.fc.enabled = true → src ≠ dst → mapLookup src st.fc.items = some item →
      mapLookup src (moveFileRenameCacheEffect src dst st).fc.items = none ∧
      mapLookup dst (moveFileRenameCacheEffect src dst st).fc.items = some item ∧
      (moveFileRenameCacheEffect src dst st).dir = st.dir) ∧
    (∀ (st : St) (src : FPath), st.fc.enabled = true →
      mapLookup src (moveFileCopyDeleteCacheEffect src st).fc.items = none ∧
      (moveFileCopyDeleteCacheEffect src st).dir = st.dir) := by
  refine ⟨?_, ?_, ?_, ?_, ?_, ?_, ?_, ?_⟩
  · intro st p hen
    unfold deleteFileCacheEffect
    by_cases hs : (mapLookup p st.fc.items).isSome = true
    · rw [if_pos (And.intro hen hs)]
      exact ⟨mapLookup_mapDelete_self p _, rfl⟩
    · rw [if_neg (fun hcon => hs hcon.2)]
      refine ⟨?_, rfl⟩
      cases hl : mapLookup p st.fc.items with
      | none => rfl
      | some v => rw [hl] at hs; simp at hs
  · intro st p content thr hen hthr
    unfold appendFileCacheEffect
    rw [if_neg hthr]
    by_cases hs : (mapLookup p st.fc.items).isSome = true
    · rw [if_pos (And.intro hen hs)]
      exact ⟨mapLookup_mapDelete_self p _, rfl⟩
    · rw [if_neg (fun hcon => hs hcon.2)]
      refine ⟨?_, rfl⟩
      cases hl : mapLookup p st.fc.items with
      | none => rfl
      | some v => rw [hl] at hs; simp at hs
  · intro st p content thr hthr
    unfold appendFileCacheEffect
    rw [if_pos hthr]
  · intro st p content wt now old hen hl hcne hwt hbig
    have h1 : mapLookup p (addToCache p content now st).fc.items =
        some { content := content, timestamp := now, lastAccess := now } := by
      unfold addToCache
      rw [if_neg (not_or.mpr (And.intro (by simp [hen]) hcne))]
      rw [if_neg hbig]
      rw [hl]
      try dsimp only
      split
      · rw [monitorFileForCache_fc]
        exact mapLookup_mapSet_self p _ _
      · exact mapLookup_mapSet_self p _ _
    have h2 := addToCache_dir p content now st
    unfold writeFileCacheEffect
    rw [if_neg hwt]
    rw [if_pos (And.intro hen (by rw [hl]; rfl))]
    exact ⟨h1, h2⟩
  · intro st p content wt now hwt
    unfold writeFileCacheEffect
    rw [if_pos hwt]
  · intro st
    rfl
  · intro st src dst item hen hne hl
    unfold moveFileRenameCacheEffect
    rw [if_pos hen]
    rw [hl]
    try dsimp only
    refine ⟨mapLookup_mapDelete_self src _, ?_, rfl⟩
    rw [mapLookup_mapDelete_ne _ (Ne.symm hne)]
    exact mapLookup_mapSet_self dst _ _
  · intro st src hen
    unfold moveFileCopyDeleteCacheEffect
    by_cases hs : (mapLookup src st.fc.items).isSome = true
    · rw [if_pos (And.intro hen hs)]
      exact ⟨mapLookup_mapDelete_self src _, rfl⟩
    · rw [if_neg (fun hcon => hs hcon.2)]
      refine ⟨?_, rfl⟩
      cases hl : mapLookup src st.fc.items with
      | none => rfl
      | some v => rw [hl] at hs; simp at hs

/-- Concrete inputs for the C3 witness: the operations applied to the
cached path d/f of st0, with the default 5MB write threshold for the
in-cache cases and a threshold of 1 against the two-byte content zz to
exercise the streaming branches. -/
theorem write_ops_cache_effects_witness :
    (mapLookup ["d", "f"] (deleteFileCacheEffect ["d", "f"] st0).fc.items = none ∧
      (deleteFileCacheEffect ["d", "f"] st0).dir = st0.dir) ∧
    (mapLookup ["d", "f"]
        (appendFileCacheEffect ["d", "f"] ("z") 5242880 st0).fc.items = none ∧
      (appendFileCacheEffect ["d", "f"] ("z") 5242880 st0).dir = st0.dir) ∧
    appendFileCacheEffect ["d", "f"] ("zz") 1 st0 = st0 ∧
    (mapLookup ["d", "f"]
        (writeFileCacheEffect ["d", "f"] ("y") 5242880 5 st0).fc.items =
      some { content := "y", timestamp := 5, lastAccess := 5 } ∧
      (writeFileCacheEffect ["d", "f"] ("y") 5242880 5 st0).dir = st0.dir) ∧
    writeFileCacheEffect ["d", "f"] ("zz") 1 5 st0 = st0 ∧
    copyFileCacheEffect st0 = st0 ∧
    (mapLookup ["d", "f"]
        (moveFileRenameCacheEffect ["d", "f"] ["d", "g"] st0).fc.items = none ∧
      mapLookup ["d", "g"]
        (moveFileRenameCacheEffect ["d", "f"] ["d", "g"] st0).fc.items =
        some { content := "x", timestamp := 0, lastAccess := 0 } ∧
      (moveFileRenameCacheEffect ["d", "f"] ["d", "g"] st0).dir = st0.dir) ∧
    (mapLookup ["d", "f"]
        (moveFileCopyDeleteCacheEffect ["d", "f"] st0).fc.items = none ∧
      (moveFileCopyDeleteCacheEffect ["d", "f"] st0).dir = st0.dir) :=
  ⟨write_ops_cache_effects.1 st0 ["d", "f"] (by decide),
    write_ops_cache_effects.2.1 st0 ["d", "f"] ("z") 5242880
      (by decide) (by decide),
    write_ops_cache_effects.2.2.1 st0 ["d", "f"] ("zz") 1 (by decide),
    write_ops_cache_effects.2.2.2.1 st0 ["d", "f"] ("y") 5242880 5
      { content := "x", timestamp := 0, lastAccess := 0 }
      (by decide) (by decide) (by decide) (by decide) (by decide),
    write_ops_cache_effects.2.2.2.2.1 st0 ["d", "f"] ("zz") 1 5 (by decide),
    write_ops_cache_effects.2.2.2.2.2.1 st0,
    write_ops_cache_effects.2.2.2.2.2.2.1 st0 ["d", "f"] ["d", "g"]
      { content := "x", timestamp := 0, lastAccess := 0 }
      (by decide) (by decide) (by decide),
    write_ops_cache_effects.2.2.2.2.2.2.2 st0 ["d", "f"] (by decide)⟩

/-- stopMonitoringFile removes a monitored path that has a live watcher
from the monitored set. -/
lemma stopMonitoringFile_not_mem (p : FPath) (st : St)
    (hme : st.mon.enabled = true) (hw : p ∈ st.mon.watchers) :
    p ∉ (stopMonitoringFile p st).mon.monitoredPaths := by
  unfold stopMonitoringFile
  by_cases hmp : p ∈ st.mon.monitoredPaths
  · rw [if_neg (fun hcon => hcon (And.intro hme hmp))]
    rw [if_pos hw]
    exact not_mem_setDelete_self p _
  · rw [if_pos (fun hcon => hmp hcon.2)]
    exact hmp

lemma deleteFileCacheEffect_mon (p : FPath) (st : St) :
    (deleteFileCacheEffect p st).mon = st.mon := by
  unfold deleteFileCacheEffect
  split <;> rfl

lemma appendFileCacheEffect_mon (p : FPath) (content : String) (thr : Int)
    (st : St) : (appendFileCacheEffect p content thr st).mon = st.mon := by
  unfold appendFileCacheEffect
  split
  · rfl
  · split <;> rfl

lemma applyFileChangeEvent_mon (ev : String) (p : FPath) (st : St) :
    (applyFileChangeEvent ev p st).mon = st.mon := by
  unfold applyFileChangeEvent
  try dsimp only
  repeat' split
  all_goals simp [invalidateDirCache_mon]

/-- C4 counterexample: the claim says that whenever the last cache entry
for a monitored path is invalidated, the watch record for that path is
removed.  deleteFile removes the only cache entry for the monitored
path d/f of st0, yet the path stays in the monitored set (and its pool
record is never closed, since only stopMonitoringFile closes it). -/
theorem deleteFile_leaves_monitoring :
    mapLookup ["d", "f"] (deleteFileCacheEffect ["d", "f"] st0).fc.items = none ∧
    ["d", "f"] ∈ (deleteFileCacheEffect ["d", "f"] st0).mon.monitoredPaths := by
  decide

/-- C4 (amended): monitoring for a path stops when its entry expires
during getFromCache (with cache monitoring enabled) and when the entry
is evicted by ensureCacheSpace; but the explicit invalidations of
deleteFile and appendFile and the change-event invalidation leave the
monitoring (and hence the pool record) in place. -/
theorem monitoring_stop_and_retention :
    (∀ (st : St) (p : FPath) (now : Int) (item : FileCacheItem),
      st.fc.enabled = true → st.fc.monitoringEnabled = true →
      st.mon.enabled = true → p ∈ st.mon.watchers →
      mapLookup p st.fc.items = some item →
      now - item.timestamp > st.fc.maxAge →
      p ∉ (getFromCache p now st).2.mon.monitoredPaths) ∧
    (∀ (st : St) (p : FPath), (deleteFileCacheEffect p st).mon = st.mon) ∧
    (∀ (st : St) (p : FPath) (content : String) (thr : Int),
      (appendFileCacheEffect p content thr st).mon = st.mon) ∧
    (∀ (ev : String) (st : St) (p : FPath),
      (applyFileChangeEvent ev p st).mon = st.mon) ∧
    (∀ (st : St) (required : Int) (k : FPath) (item : FileCacheItem)
        (rest : List (FPath × FileCacheItem)),
      st.fc.monitoringEnabled = true → st.mon.enabled = true →
      k ∈ st.mon.watchers →
      ¬ (st.fc.size + required ≤ st.fc.maxSize) →
      sortByLastAccess st.fc.items = (k, item) :: rest →
      st.fc.size - (item.content.length : Int) + required ≤ st.fc.maxSize →
      k ∉ (ensureCacheSpace required st).mon.monitoredPaths) := by
  refine ⟨?_, ?_, ?_, ?_, ?_⟩
  · intro st p now item hen hmon hme hw hl hexp
    unfold getFromCache
    rw [if_neg (by simp [hen])]
    rw [hl]
    try dsimp only
    rw [if_pos hexp]
    rw [if_pos hmon]
    exact stopMonitoringFile_not_mem p st hme hw
  · intro st p
    exact deleteFileCacheEffect_mon p st
  · intro st p content thr
    exact appendFileCacheEffect_mon p content thr st
  · intro ev st p
    exact applyFileChangeEvent_mon ev p st
  · intro st required k item rest hmon hme hw hfull hsort hroom
    unfold ensureCacheSpace
    rw [if_neg hfull, hsort]
    unfold evictLoop
    try dsimp only
    rw [if_pos hmon]
    rw [if_pos (by
      simp only [stopMonitoringFile_fc]
      exact hroom)]
    exact stopMonitoringFile_not_mem k st hme hw
  
/-- A full file cache whose least-recently-accessed entry b is monitored:
inserting one more byte forces ensureCacheSpace to evict exactly b. -/
def stEvict : St :=
  { fc := { enabled := true,
            items := [(["a"], { content := "x", timestamp := 0, lastAccess := 2 }),
                      (["b"], { content := "y", timestamp := 1, lastAccess := 1 })],
            size := 2, maxSize := 2, maxAge := 60000,
            hits := 0, misses := 0, evictions := 0, monitoringEnabled := true },
    mon := { enabled := true, watchers := [["a"], ["b"]],
             monitoredPaths := [["a"], ["b"]] },
    dir := { enabled := false, maxSize := 100, maxAge := 30000, items := [],
             hits := 0, misses := 0, evictions := 0 },
    dirMon := monOff,
    cfgCacheMonitoring := true }

/-- Concrete inputs for the C4 witness: expiry of d/f in st0, the
retention cases on st0, and the LRU eviction of b in stEvict. -/
theorem monitoring_stop_and_retention_witness :
    (["d", "f"] ∉ (getFromCache ["d", "f"] 70000 st0).2.mon.monitoredPaths) ∧
    (deleteFileCacheEffect ["d", "f"] st0).mon = st0.mon ∧
    (appendFileCacheEffect ["d", "f"] ("z") 5242880 st0).mon = st0.mon ∧
    (applyFileChangeEvent ("change") ["d", "f"] st0).mon = st0.mon ∧
    (["b"] ∉ (ensureCacheSpace 1 stEvict).mon.monitoredPaths) :=
  ⟨monitoring_stop_and_retention.1 st0 ["d", "f"] 70000
      { content := "x", timestamp := 0, lastAccess := 0 }
      (by decide) (by decide) (by decide) (by decide) (by decide) (by decide),
    monitoring_stop_and_retention.2.1 st0 ["d", "f"],
    monitoring_stop_and_retention.2.2.1 st0 ["d", "f"] ("z") 5242880,
    monitoring_stop_and_retention.2.2.2.1 ("change") st0 ["d", "f"],
    monitoring_stop_and_retention.2.2.2.2 stEvict 1 ["b"]
      { content := "y", timestamp := 1, lastAccess := 1 }
      [(["a"], { content := "x", timestamp := 0, lastAccess := 2 })]
      (by decide) (by decide) (by decide) (by decide) (by decide) (by decide)⟩

/-- An empty dir cache limited to one entry, with everything else
disabled. -/
def c8base : St :=
  { fc := { enabled := false, items := [], size := 0, maxSize := 100,
            maxAge := 60000, hits := 0, misses := 0, evictions := 0,
            monitoringEnabled := false },
    mon := monOff,
    dir := { enabled := true, maxSize := 1, maxAge := 30000, items := [],
             hits := 0, misses := 0, evictions := 0 },
    dirMon := monOff,
    cfgCacheMonitoring := false }

/-- The dir cache after caching listings for a and then b in the same
Date.now() millisecond, with maxSize = 1. -/
def c8st2 : St := addToDirCache ["b"] ["g"] 5 (addToDirCache ["a"] ["f"] 5 c8base)

/-- C8: the claim says that when an insert would push the cache over
maxSize, least-recently-accessed entries are evicted until there is
room, each eviction counting.  The dir cache violates this: inserting a
second listing in the same millisecond as the first finds the cache
full, but evictFromDirCache initializes its minimum to the current time
with a strict less-than, so the entry whose lastAccessed equals the
current tick is not evicted: the cache ends with 2 entries over a
maxSize of 1 and the eviction counter still 0. -/
theorem dir_cache_no_eviction_on_same_tick :
    c8st2.dir.items.length = 2 ∧ c8st2.dir.maxSize = 1 ∧
      c8st2.dir.evictions = 0 := by
  decide

end FsSrv
